import Mathlib

/-
Verification of the asynctransfer example program and the SettingsDialog
interface of the nerian-vision-software excerpt.

The example program (asynctransfer_example.cpp) is embedded shallowly as a
pure function from an environment describing the external world (discovered
devices, outcomes of library calls, exceptions raised by them) to the trace
of its observable events and its exit code.  File names produced by
snprintf with the format string used in the source are modelled exactly,
including the zero padding of the width-3 field.
-/

set_option maxHeartbeats 1000000

/-- Fuel-driven decimal digit list (most significant first) of a natural
number, modelling what the C formatting directive percent-d prints.  The
fuel argument makes the recursion structural so that terms evaluate inside
the kernel. -/
def decCharsAux : Nat → Nat → List Char
  | 0, _ => []
  | fuel + 1, n =>
    if n < 10 then [Nat.digitChar n]
    else decCharsAux fuel (n / 10) ++ [Nat.digitChar (n % 10)]

/-- Decimal digit string of a natural number, most significant digit
first; the model of printing an int with percent-d. -/
def decChars (n : Nat) : List Char :=
  decCharsAux (n + 1) n

/-- Numeric value obtained by reading a character list as decimal digits;
used only in proofs, to invert decChars. -/
def decVal (cs : List Char) : Nat :=
  cs.foldl (fun acc c => acc * 10 + (c.toNat - 48)) 0

/-- Digit list of a natural number left-padded with zeros to width at
least 3, modelling the C formatting directive percent-03d. -/
def pad3Chars (n : Nat) : List Char :=
  List.replicate (3 - (decChars n).length) '0' ++ decChars n

/-- Character list of the file name the example builds with snprintf from
the format string image percent-03d underscore percent-d dot pgm, applied
to the sub-image index i (the width-3 zero-padded field) and the image-set
number imgNum (the plain decimal field), exactly as the arguments appear
in the source. -/
def fileNameChars (i imgNum : Nat) : List Char :=
  'i' :: 'm' :: 'a' :: 'g' :: 'e' :: (pad3Chars i ++ '_' :: (decChars imgNum ++ ['.', 'p', 'g', 'm']))

/-- The file name the example passes to writePgmFile for sub-image i of
image set imgNum. -/
def fileName (i imgNum : Nat) : String :=
  ⟨fileNameChars i imgNum⟩

/-- A discovered device; toString models DeviceInfo toString, the only
observable the example uses besides passing the device to AsyncTransfer. -/
structure Device where
  toString : String
deriving DecidableEq

/-- An image set as far as the example observes it: the example only calls
getNumberOfImages and writePgmFile on it. -/
structure ImageSet where
  numberOfImages : Nat
deriving DecidableEq

/-- Model of the ImageSet getNumberOfImages accessor. -/
def ImageSet.getNumberOfImages (s : ImageSet) : Nat :=
  s.numberOfImages

/-- The double literal 0.1 passed as the timeout argument of
collectReceivedImageSet, modelled as the rational one tenth. -/
structure TimeoutVal where
  numer : Nat
  denom : Nat
deriving DecidableEq

/-- The timeout value 0.1 used by every collectReceivedImageSet call in
the example. -/
def collectTimeout : TimeoutVal :=
  ⟨1, 10⟩

/-- Result of one collectReceivedImageSet call: it returned a boolean, or
it raised an exception with the given message. -/
inductive CollectOutcome where
  | returned (b : Bool)
  | threw (e : String)
deriving DecidableEq

/-- Observable events of a run of the example program. -/
inductive Event where
  | stdoutLine (s : String)
  | stderrLine (s : String)
  | constructTransfer (d : Device)
  | collectCall (timeout : TimeoutVal) (out : CollectOutcome)
  | writeCall (i : Nat) (f : String)
deriving DecidableEq

/-- What the environment answers for one image-set number: after
failsBefore calls that return false, the next call returns true with image
set s, or raises an exception with message e. -/
inductive RecvOutcome where
  | ok (failsBefore : Nat) (s : ImageSet)
  | throws (failsBefore : Nat) (e : String)
deriving DecidableEq

/-- Environment of one run: the device list discovery yields, whether
discovery or the AsyncTransfer constructor raise, the reception outcome per
image-set number, and whether each writePgmFile call raises. -/
structure Env where
  devices : List Device
  enumOutcome : Option String
  ctorOutcome : Option String
  recv : Nat → RecvOutcome
  writeOutcome : Nat → Nat → Option String

/-- The stdout line announcing image set n. -/
def hdrEv (n : Nat) : Event :=
  Event.stdoutLine ("Receiving image set " ++ String.mk (decChars n))

/-- The k failing collectReceivedImageSet calls preceding the decisive
one for an image set. -/
def attemptEvents (k : Nat) : List Event :=
  List.replicate k (Event.collectCall collectTimeout (CollectOutcome.returned false))

/-- The inner for loop of the example: writePgmFile for sub-images i,
i+1, ... while fewer than rem indices remain to be written; stops early
with the exception message if a write raises. -/
def writeEvents (wOut : Nat → Option String) (imgNum : Nat) : Nat → Nat → List Event × Option String
  | _, 0 => ([], none)
  | i, rem + 1 =>
    match wOut i with
    | some e => ([Event.writeCall i (fileName i imgNum)], some e)
    | none =>
      let rest := writeEvents wOut imgNum (i + 1) rem
      (Event.writeCall i (fileName i imgNum) :: rest.1, rest.2)

/-- One iteration of the outer for loop of the example: announce the set,
poll collectReceivedImageSet until it returns true, then write every
sub-image; the second component is the exception message if the iteration
raised. -/
def processSet (env : Env) (imgNum : Nat) : List Event × Option String :=
  match env.recv imgNum with
  | RecvOutcome.throws k e =>
    (hdrEv imgNum :: (attemptEvents k ++ [Event.collectCall collectTimeout (CollectOutcome.threw e)]),
      some e)
  | RecvOutcome.ok k s =>
    let w := writeEvents (env.writeOutcome imgNum) imgNum 0 s.numberOfImages
    (hdrEv imgNum :: (attemptEvents k ++
      Event.collectCall collectTimeout (CollectOutcome.returned true) :: w.1), w.2)

/-- The outer for loop of the example, for set numbers start, start+1, ...
while rem iterations remain; stops early with the exception message if an
iteration raised. -/
def setsLoop (env : Env) : Nat → Nat → List Event × Option String
  | _, 0 => ([], none)
  | start, rem + 1 =>
    let p := processSet env start
    match p.2 with
    | some e => (p.1, some e)
    | none =>
      let rest := setsLoop env (start + 1) rem
      (p.1 ++ rest.1, rest.2)

/-- The stdout lines printing the discovered device list. -/
def deviceLines (ds : List Device) : List Event :=
  Event.stdoutLine "Discovered devices:" ::
    (ds.map fun d => Event.stdoutLine d.toString) ++ [Event.stdoutLine ""]

/-- The try block of main: its events, and either its return value or the
exception it raised. -/
def body (env : Env) : List Event × Except String Int :=
  match env.enumOutcome with
  | some e => ([], Except.error e)
  | none =>
    match env.devices with
    | [] => ([Event.stdoutLine "No devices discovered!"], Except.ok (-1))
    | d :: _ =>
      let dl := deviceLines env.devices
      match env.ctorOutcome with
      | some e => (dl, Except.error e)
      | none =>
        let lp := setsLoop env 0 100
        (dl ++ Event.constructTransfer d :: lp.1,
          match lp.2 with
          | some e => Except.error e
          | none => Except.ok 0)

/-- The whole of main (named mainFn because Lean reserves the name main
for executables): the try block followed by the catch handler that prints
the exception message to stderr; yields the event trace and the exit
code. -/
def mainFn (env : Env) : List Event × Int :=
  match body env with
  | (evs, Except.ok r) => (evs, r)
  | (evs, Except.error e) =>
    (evs ++ [Event.stderrLine ("Exception occurred: " ++ e)], 0)

/-- Whether an event is a collectReceivedImageSet call that returned
true, i.e. a successful reception. -/
def isCollectTrue : Event → Bool
  | Event.collectCall _ (CollectOutcome.returned true) => true
  | _ => false

/-- Whether an event is a collectReceivedImageSet call that returned
false, i.e. a failed reception attempt. -/
def isCollectFalse : Event → Bool
  | Event.collectCall _ (CollectOutcome.returned false) => true
  | _ => false

/-- Whether an event is a collectReceivedImageSet call at all. -/
def isCollect : Event → Bool
  | Event.collectCall _ _ => true
  | _ => false

/-- Whether an event is a writePgmFile call whose file name is the one the
example forms for its sub-image index and image set n. -/
def isWriteForSet (n : Nat) : Event → Bool
  | Event.writeCall i f => decide (f = fileName i n)
  | _ => false

/-- Whether an event is a writePgmFile call for sub-image index i. -/
def isWriteWithIndex (i : Nat) : Event → Bool
  | Event.writeCall j _ => decide (j = i)
  | _ => false

/-- Whether an event is a writePgmFile call. -/
def isWrite : Event → Bool
  | Event.writeCall _ _ => true
  | _ => false

/-- C++ types occurring in the SettingsDialog class declaration. -/
inductive CppType where
  | void
  | boolTy
  | qwidgetPtr
  | settings
  | constSettingsRef
  | settingsRef
  | uiSettingsDialogPtr
deriving DecidableEq

/-- Kind of a class member in the SettingsDialog declaration. -/
inductive MemberKind where
  | ctor
  | dtor
  | method
  | field
deriving DecidableEq

/-- C++ access specifier. -/
inductive Vis where
  | pub
  | priv
deriving DecidableEq

/-- One member of the SettingsDialog class declaration: its name, access,
kind, staticness, parameter types and result type (none for constructors,
destructors and for fields the stored type is in ret). -/
structure Member where
  name : String
  vis : Vis
  kind : MemberKind
  isStatic : Bool
  params : List CppType
  ret : Option CppType
deriving DecidableEq

/-- The members of class SettingsDialog exactly as declared in
settingsdialog.h (the inherited QDialog members are not part of this
declaration). -/
def settingsDialogMembers : List Member :=
  [ ⟨"SettingsDialog", Vis.pub, MemberKind.ctor, false, [CppType.qwidgetPtr, CppType.constSettingsRef], none⟩,
    ⟨"~SettingsDialog", Vis.pub, MemberKind.dtor, false, [], none⟩,
    ⟨"getSettings", Vis.pub, MemberKind.method, false, [], some CppType.constSettingsRef⟩,
    ⟨"chooseWriteDirectory", Vis.pub, MemberKind.method, true,
      [CppType.qwidgetPtr, CppType.settingsRef, CppType.boolTy], some CppType.boolTy⟩,
    ⟨"ui", Vis.priv, MemberKind.field, false, [], some CppType.uiSettingsDialogPtr⟩,
    ⟨"settingsNew", Vis.priv, MemberKind.field, false, [], some CppType.settings⟩,
    ⟨"settingsOrig", Vis.priv, MemberKind.field, false, [], some CppType.settings⟩,
    ⟨"accepted", Vis.priv, MemberKind.field, false, [], some CppType.boolTy⟩,
    ⟨"dialogAccepted", Vis.priv, MemberKind.method, false, [], some CppType.void⟩,
    ⟨"adjustSize", Vis.priv, MemberKind.method, false, [], some CppType.void⟩ ]

/-- Whether a C++ type is the Settings value type or a reference to it. -/
def mentionsSettings : CppType → Bool
  | CppType.settings => true
  | CppType.constSettingsRef => true
  | CppType.settingsRef => true
  | _ => false

/-- Modelled from the spec's words: a getter operation over the Settings
value object is a public non-static member function without parameters
whose result is the Settings type or a reference to it. -/
def IsSettingsGetter (m : Member) : Prop :=
  m.vis = Vis.pub ∧ m.kind = MemberKind.method ∧ m.isStatic = false ∧
    m.params = [] ∧ ∃ t, m.ret = some t ∧ mentionsSettings t = true

/-- Modelled from the spec's words: a setter operation over the Settings
value object is a public non-static member function taking the Settings
type or a reference to it among its parameters. -/
def IsSettingsSetter (m : Member) : Prop :=
  m.vis = Vis.pub ∧ m.kind = MemberKind.method ∧ m.isStatic = false ∧
    ∃ t ∈ m.params, mentionsSettings t = true

/-- Modelled from the claim's words, for comparison with fileName: the
file name with the three-digit zero-padded field holding the set number
and the plain decimal field holding the sub-image index. -/
def specFileName (setNum i : Nat) : String :=
  ⟨'i' :: 'm' :: 'a' :: 'g' :: 'e' :: (pad3Chars setNum ++ '_' :: (decChars i ++ ['.', 'p', 'g', 'm']))⟩

/-- A sample device for concrete runs. -/
def devCam : Device :=
  ⟨"camera"⟩

/-- Environment in which discovery succeeds but yields no device. -/
def envNoDev : Env :=
  ⟨[], none, none, fun _ => RecvOutcome.ok 0 ⟨0⟩, fun _ _ => none⟩

/-- Environment in which device discovery raises an exception. -/
def envEnumThrow : Env :=
  ⟨[devCam], some "enumeration failed", none, fun _ => RecvOutcome.ok 0 ⟨0⟩, fun _ _ => none⟩

/-- Environment with one device in which every reception immediately
succeeds with an empty image set and nothing raises. -/
def envAllOk : Env :=
  ⟨[devCam], none, none, fun _ => RecvOutcome.ok 0 ⟨0⟩, fun _ _ => none⟩

/-- Environment with one device in which sets 0 and 1 are received with
one sub-image each and the reception of set 2 raises, ending the run
early; nothing else raises. -/
def envTwoSets : Env :=
  ⟨[devCam], none, none,
    fun n => if n < 2 then RecvOutcome.ok 0 ⟨1⟩ else RecvOutcome.throws 0 "stop",
    fun _ _ => none⟩

/-- Environment with one device in which set 0 is received with two
sub-images and the very first writePgmFile call raises. -/
def envWriteThrow : Env :=
  ⟨[devCam], none, none,
    fun n => if n = 0 then RecvOutcome.ok 0 ⟨2⟩ else RecvOutcome.throws 0 "stop",
    fun n i => if n = 0 ∧ i = 0 then some "disk full" else none⟩

instance (m : Member) : Decidable (IsSettingsGetter m) := by
  unfold IsSettingsGetter
  infer_instance

instance (m : Member) : Decidable (IsSettingsSetter m) := by
  unfold IsSettingsSetter
  infer_instance

/-- Whether an event is a writePgmFile call with the given file name. -/
def hasWriteNamed (f : String) : Event → Bool
  | Event.writeCall _ g => decide (g = f)
  | _ => false

/-- A trace in which every collectReceivedImageSet call returning false is
immediately followed by another collectReceivedImageSet call: the loop
retries after every failed attempt, never writing or skipping instead. -/
def NoBareFailure (tr : List Event) : Prop :=
  ∀ xs t ys, tr = xs ++ Event.collectCall t (CollectOutcome.returned false) :: ys →
    ∃ t2 o2 zs, ys = Event.collectCall t2 o2 :: zs

/-- Environment with one device in which every reception immediately
succeeds with a one-image set and nothing raises. -/
def envOneImg : Env :=
  ⟨[devCam], none, none, fun _ => RecvOutcome.ok 0 ⟨1⟩, fun _ _ => none⟩

theorem decCharsAux_fuel_irrel (n : Nat) : ∀ f1 f2 : Nat, n < f1 → n < f2 →
    decCharsAux f1 n = decCharsAux f2 n := by
  induction n using Nat.strong_induction_on with
  | _ n ih =>
    intro f1 f2 h1 h2
    match f1, f2 with
    | g1 + 1, g2 + 1 =>
      by_cases h10 : n < 10
      · simp [decCharsAux, h10]
      · have hdiv : n / 10 < n := Nat.div_lt_self (by omega) (by omega)
        have hg1 : n / 10 < g1 := by omega
        have hg2 : n / 10 < g2 := by omega
        simp only [decCharsAux, if_neg h10]
        rw [ih (n / 10) hdiv g1 g2 hg1 hg2]

/-- Unfolding equation of decChars that hides the fuel. -/
theorem decChars_eq (n : Nat) : decChars n =
    if n < 10 then [Nat.digitChar n]
    else decChars (n / 10) ++ [Nat.digitChar (n % 10)] := by
  by_cases h10 : n < 10
  · simp [decChars, decCharsAux, h10]
  · have hdiv : n / 10 < n := Nat.div_lt_self (by omega) (by omega)
    rw [if_neg h10]
    have h1 : decCharsAux (n + 1) n = decCharsAux n (n / 10) ++ [Nat.digitChar (n % 10)] := by
      simp [decCharsAux, h10]
    show decCharsAux (n + 1) n = _
    rw [h1, decCharsAux_fuel_irrel (n / 10) n (n / 10 + 1) hdiv (by omega)]
    rfl

theorem digitChar_toNat (a : Nat) (h : a < 10) : (Nat.digitChar a).toNat = 48 + a := by
  interval_cases a <;> rfl

theorem digitChar_ne_underscore (a : Nat) (h : a < 10) : Nat.digitChar a ≠ '_' := by
  interval_cases a <;> decide

theorem decVal_append_singleton (xs : List Char) (c : Char) :
    decVal (xs ++ [c]) = decVal xs * 10 + (c.toNat - 48) := by
  simp [decVal, List.foldl_append]

theorem decVal_decChars (n : Nat) : decVal (decChars n) = n := by
  induction n using Nat.strong_induction_on with
  | _ n ih =>
    rw [decChars_eq]
    by_cases h10 : n < 10
    · simp only [if_pos h10, decVal, List.foldl_cons, List.foldl_nil]
      rw [digitChar_toNat n h10]
      omega
    · have hdiv : n / 10 < n := Nat.div_lt_self (by omega) (by omega)
      simp only [if_neg h10]
      rw [decVal_append_singleton, ih (n / 10) hdiv,
        digitChar_toNat (n % 10) (Nat.mod_lt n (by omega))]
      omega

theorem decChars_injective (m n : Nat) (h : decChars m = decChars n) : m = n := by
  have := decVal_decChars m
  rw [h, decVal_decChars] at this
  omega

theorem decChars_no_underscore (n : Nat) : '_' ∉ decChars n := by
  induction n using Nat.strong_induction_on with
  | _ n ih =>
    rw [decChars_eq]
    by_cases h10 : n < 10
    · simp only [if_pos h10, List.mem_singleton]
      exact fun h => (digitChar_ne_underscore n h10 h.symm).elim
    · have hdiv : n / 10 < n := Nat.div_lt_self (by omega) (by omega)
      simp only [if_neg h10, List.mem_append, List.mem_singleton]
      intro h
      rcases h with h | h
      · exact ih (n / 10) hdiv h
      · exact digitChar_ne_underscore (n % 10) (Nat.mod_lt n (by omega)) h.symm

theorem decChars_length_le (k : Nat) : ∀ n : Nat, n < 10 ^ (k + 1) →
    (decChars n).length ≤ k + 1 := by
  induction k with
  | zero =>
    intro n h
    rw [decChars_eq]
    simp only [Nat.zero_add, pow_one] at h
    rw [if_pos h]
    simp
  | succ k ih =>
    intro n h
    rw [decChars_eq]
    by_cases h10 : n < 10
    · rw [if_pos h10]
      simp
    · simp only [if_neg h10, List.length_append, List.length_singleton]
      have hsmall : n / 10 < 10 ^ (k + 1) := by
        rw [Nat.div_lt_iff_lt_mul (by omega)]
        calc n < 10 ^ (k + 1 + 1) := h
        _ = 10 ^ (k + 1) * 10 := by ring
      have := ih (n / 10) hsmall
      omega

theorem decChars_length_pos (n : Nat) : 0 < (decChars n).length := by
  rw [decChars_eq]
  by_cases h10 : n < 10
  · simp [if_pos h10]
  · simp [if_neg h10]

theorem decVal_replicate_zero_append (k : Nat) (cs : List Char) :
    decVal (List.replicate k '0' ++ cs) = decVal cs := by
  induction k with
  | zero => rfl
  | succ k ih =>
    simp only [List.replicate_succ, List.cons_append]
    show decVal (List.replicate k '0' ++ cs) = decVal cs
    exact ih

theorem decVal_pad3Chars (n : Nat) : decVal (pad3Chars n) = n := by
  rw [pad3Chars, decVal_replicate_zero_append, decVal_decChars]

theorem pad3Chars_injective (m n : Nat) (h : pad3Chars m = pad3Chars n) : m = n := by
  have := decVal_pad3Chars m
  rw [h, decVal_pad3Chars] at this
  omega

theorem pad3Chars_no_underscore (n : Nat) : '_' ∉ pad3Chars n := by
  rw [pad3Chars]
  simp only [List.mem_append, List.mem_replicate]
  intro h
  rcases h with ⟨_, h⟩ | h
  · exact absurd h (by decide)
  · exact decChars_no_underscore n h

theorem pad3Chars_length_le (n k : Nat) (h3 : 3 ≤ k + 1) (h : n < 10 ^ (k + 1)) :
    (pad3Chars n).length ≤ k + 1 := by
  have hlen := decChars_length_le k n h
  rw [pad3Chars]
  simp only [List.length_append, List.length_replicate]
  omega

theorem split_at_underscore (xs1 : List Char) : ∀ xs2 ys1 ys2 : List Char,
    '_' ∉ xs1 → '_' ∉ xs2 → xs1 ++ '_' :: ys1 = xs2 ++ '_' :: ys2 →
    xs1 = xs2 ∧ ys1 = ys2 := by
  induction xs1 with
  | nil =>
    intro xs2 ys1 ys2 _ h2 h
    match xs2 with
    | [] => simpa using h
    | c :: xs2 =>
      simp only [List.nil_append, List.cons_append, List.cons.injEq] at h
      exact absurd (h.1 ▸ List.mem_cons_self c xs2) h2
  | cons c xs1 ih =>
    intro xs2 ys1 ys2 h1 h2 h
    match xs2 with
    | [] =>
      simp only [List.cons_append, List.nil_append, List.cons.injEq] at h
      exact absurd (h.1 ▸ List.mem_cons_self c xs1) h1
    | c2 :: xs2 =>
      simp only [List.cons_append, List.cons.injEq] at h
      have h1' : '_' ∉ xs1 := fun hm => h1 (List.mem_cons_of_mem c hm)
      have h2' : '_' ∉ xs2 := fun hm => h2 (List.mem_cons_of_mem c2 hm)
      have := ih xs2 ys1 ys2 h1' h2' h.2
      exact ⟨by rw [h.1, this.1], this.2⟩

theorem fileName_inj (i1 n1 i2 n2 : Nat) (h : fileName i1 n1 = fileName i2 n2) :
    i1 = i2 ∧ n1 = n2 := by
  have hdata : fileNameChars i1 n1 = fileNameChars i2 n2 := congrArg String.data h
  simp only [fileNameChars, List.cons.injEq, true_and] at hdata
  have hsplit := split_at_underscore (pad3Chars i1) (pad3Chars i2)
    (decChars n1 ++ ['.', 'p', 'g', 'm']) (decChars n2 ++ ['.', 'p', 'g', 'm'])
    (pad3Chars_no_underscore i1) (pad3Chars_no_underscore i2) hdata
  refine ⟨pad3Chars_injective i1 i2 hsplit.1, decChars_injective n1 n2 ?_⟩
  exact List.append_cancel_right hsplit.2

theorem fileName_eq_iff (i1 n1 i2 n2 : Nat) :
    fileName i1 n1 = fileName i2 n2 ↔ (i1 = i2 ∧ n1 = n2) := by
  constructor
  · exact fileName_inj i1 n1 i2 n2
  · rintro ⟨rfl, rfl⟩; rfl

theorem fileName_length (i n : Nat) :
    (fileName i n).length = 10 + ((pad3Chars i).length + (decChars n).length) := by
  show (fileNameChars i n).length = _
  simp [fileNameChars]
  omega

/-- C8: for every set number below 100 and every sub-image index
representable as a non-negative 32-bit int, the file name the example
formats fits in the 100-byte buffer together with its terminating NUL, so
snprintf does not truncate. -/
theorem snprintf_buffer_fits (i n : Nat) (hi : i < 2 ^ 31) (hn : n < 100) :
    (fileName i n).length + 1 ≤ 100 := by
  have hi10 : i < 10 ^ (9 + 1) := by
    have h2 : (2 : Nat) ^ 31 < 10 ^ 10 := by norm_num
    omega
  have h1 : (pad3Chars i).length ≤ 10 := pad3Chars_length_le i 9 (by omega) hi10
  have hn10 : n < 10 ^ (1 + 1) := by norm_num; omega
  have h2 : (decChars n).length ≤ 2 := decChars_length_le 1 n hn10
  rw [fileName_length]
  omega

theorem snprintf_buffer_fits_witness :
    2147483647 < 2 ^ 31 ∧ 99 < 100 ∧ (fileName 2147483647 99).length + 1 ≤ 100 :=
  ⟨by norm_num, by norm_num, snprintf_buffer_fits 2147483647 99 (by norm_num) (by norm_num)⟩

/-- C9: the file-name formatting is injective on pairs of a sub-image
index and a set number below 100, so distinct pairs never produce the same
file name within a run. -/
theorem fileName_injective_on_pairs (i1 n1 i2 n2 : Nat) (hn1 : n1 < 100) (hn2 : n2 < 100)
    (hne : (i1, n1) ≠ (i2, n2)) : fileName i1 n1 ≠ fileName i2 n2 := by
  intro h
  obtain ⟨hi, hn⟩ := fileName_inj i1 n1 i2 n2 h
  exact hne (by rw [hi, hn])

theorem fileName_injective_on_pairs_witness : fileName 0 0 ≠ fileName 1 0 :=
  fileName_injective_on_pairs 0 0 1 0 (by norm_num) (by norm_num) (by decide)

/-- C7 counterexample: no public non-static member function of
SettingsDialog takes the Settings type (or a reference to it) as a
parameter, so the declared interface exposes no setter operation over the
Settings value object besides the constructor and the static helper. -/
theorem settingsDialog_setter_cex :
    ¬ (∃ m ∈ settingsDialogMembers, IsSettingsSetter m) := by
  decide

/-- C7 amended: the SettingsDialog interface exposes a getter
(getSettings) over the Settings value object and the static helper
chooseWriteDirectory taking a parent widget, a Settings reference and an
allow-skip flag and returning bool, but no setter member function; a
Settings value enters only through the constructor. -/
theorem settingsDialog_interface :
    (∃ m ∈ settingsDialogMembers, IsSettingsGetter m ∧ m.name = "getSettings") ∧
    (∃ m ∈ settingsDialogMembers, m.name = "chooseWriteDirectory" ∧ m.vis = Vis.pub ∧
      m.kind = MemberKind.method ∧ m.isStatic = true ∧
      m.params = [CppType.qwidgetPtr, CppType.settingsRef, CppType.boolTy] ∧
      m.ret = some CppType.boolTy) ∧
    (¬ ∃ m ∈ settingsDialogMembers, IsSettingsSetter m) ∧
    (∃ m ∈ settingsDialogMembers, m.kind = MemberKind.ctor ∧
      CppType.constSettingsRef ∈ m.params) := by
  decide

/-- C10: when discovery succeeds with an empty device list, the whole run
consists of the single stdout message and the exit code -1: no transfer
object is constructed, no reception is attempted, and no file is
written. -/
theorem no_devices_early_return (env : Env) (hd : env.devices = [])
    (he : env.enumOutcome = none) :
    mainFn env = ([Event.stdoutLine "No devices discovered!"], -1) := by
  obtain ⟨ds, eo, co, rc, wo⟩ := env
  simp only at hd he
  subst hd; subst he
  simp [mainFn, body]

theorem no_devices_early_return_witness :
    mainFn envNoDev = ([Event.stdoutLine "No devices discovered!"], -1) :=
  no_devices_early_return envNoDev rfl rfl

/-- C2: main returns -1 exactly when discovery succeeded with an empty
device list, in which case the message is printed; a run whose try block
raised returns 0; and every terminating run returns -1 or 0. -/
theorem exit_code_spec (env : Env) :
    (env.enumOutcome = none → (((mainFn env).2 = -1) ↔ env.devices = [])) ∧
    ((mainFn env).2 = -1 → env.enumOutcome = none ∧ env.devices = []) ∧
    (env.enumOutcome = none → env.devices = [] →
      Event.stdoutLine "No devices discovered!" ∈ (mainFn env).1) ∧
    (∀ e, (body env).2 = Except.error e → (mainFn env).2 = 0) ∧
    ((mainFn env).2 = -1 ∨ (mainFn env).2 = 0) := by
  obtain ⟨ds, eo, co, rc, wo⟩ := env
  cases eo with
  | some e => simp [mainFn, body]
  | none =>
    cases ds with
    | nil => simp [mainFn, body]
    | cons d ds =>
      cases co with
      | some e => simp [mainFn, body]
      | none =>
        cases hl : (setsLoop ⟨d :: ds, none, none, rc, wo⟩ 0 100).2 with
        | some e => simp [mainFn, body, hl]
        | none => simp [mainFn, body, hl]

theorem exit_code_spec_witness : (mainFn envNoDev).2 = -1 :=
  ((exit_code_spec envNoDev).1 rfl).mpr rfl

/-- C3: whenever the try block of main raises, main catches the
exception, appends exactly one stderr line carrying its message, and
returns normally with exit code 0, so nothing propagates to the caller. -/
theorem exceptions_caught (env : Env) (e : String) (h : (body env).2 = Except.error e) :
    (mainFn env).2 = 0 ∧
    (mainFn env).1 = (body env).1 ++ [Event.stderrLine ("Exception occurred: " ++ e)] := by
  rcases hb : body env with ⟨evs, r⟩
  rw [hb] at h
  have hr : r = Except.error e := h
  subst hr
  simp [mainFn, hb]

theorem exceptions_caught_witness :
    (mainFn envEnumThrow).2 = 0 ∧
    (mainFn envEnumThrow).1 = (body envEnumThrow).1 ++
      [Event.stderrLine ("Exception occurred: " ++ "enumeration failed")] :=
  exceptions_caught envEnumThrow "enumeration failed" rfl

theorem writeEvents_ok (wOut : Nat → Option String) (n : Nat) (h : ∀ j, wOut j = none) :
    ∀ rem i, writeEvents wOut n i rem =
      ((List.range' i rem).map fun j => Event.writeCall j (fileName j n), none) := by
  intro rem
  induction rem with
  | zero => intro i; simp [writeEvents]
  | succ rem ih =>
    intro i
    simp only [writeEvents, h i]
    rw [ih (i + 1), List.range'_succ]
    simp

theorem writeEvents_mem (wOut : Nat → Option String) (n : Nat) :
    ∀ rem i e, e ∈ (writeEvents wOut n i rem).1 →
      ∃ j, i ≤ j ∧ j < i + rem ∧ e = Event.writeCall j (fileName j n) := by
  intro rem
  induction rem with
  | zero => intro i e h; simp [writeEvents] at h
  | succ rem ih =>
    intro i e h
    simp only [writeEvents] at h
    cases hw : wOut i with
    | some ex =>
      rw [hw] at h
      simp at h
      exact ⟨i, le_refl i, by omega, h⟩
    | none =>
      rw [hw] at h
      simp at h
      rcases h with h | h
      · exact ⟨i, le_refl i, by omega, h⟩
      · obtain ⟨j, h1, h2, h3⟩ := ih (i + 1) e h
        exact ⟨j, by omega, by omega, h3⟩

theorem hdrEv_inj (m n : Nat) (h : hdrEv m = hdrEv n) : m = n := by
  simp only [hdrEv, Event.stdoutLine.injEq] at h
  have hd := congrArg String.data h
  simp only [String.data_append] at hd
  exact decChars_injective m n (List.append_cancel_left hd)

theorem mem_attemptEvents (k : Nat) (e : Event) (h : e ∈ attemptEvents k) :
    e = Event.collectCall collectTimeout (CollectOutcome.returned false) := by
  simp only [attemptEvents, List.mem_replicate] at h
  exact h.2

theorem countP_attemptEvents (k : Nat) : List.countP isCollectTrue (attemptEvents k) = 0 := by
  rw [List.countP_eq_zero]
  intro e he
  rw [mem_attemptEvents k e he]
  decide

theorem countP_writeEvents (wOut : Nat → Option String) (n rem i : Nat) :
    List.countP isCollectTrue (writeEvents wOut n i rem).1 = 0 := by
  rw [List.countP_eq_zero]
  intro e he
  obtain ⟨j, _, _, h3⟩ := writeEvents_mem wOut n rem i e he
  rw [h3]
  simp [isCollectTrue]

theorem hdrEv_mem_processSet (env : Env) (m n : Nat) :
    hdrEv n ∈ (processSet env m).1 ↔ n = m := by
  constructor
  · intro h
    unfold processSet at h
    cases hr : env.recv m with
    | throws k e =>
      rw [hr] at h
      simp only [List.mem_cons, List.mem_append, List.mem_singleton] at h
      rcases h with h | h | h
      · exact hdrEv_inj n m h
      · exact absurd (mem_attemptEvents k _ h) (by simp [hdrEv])
      · exact absurd h (by simp [hdrEv])
    | ok k s =>
      rw [hr] at h
      simp only [List.mem_cons, List.mem_append] at h
      rcases h with h | h | h
      · exact hdrEv_inj n m h
      · exact absurd (mem_attemptEvents k _ h) (by simp [hdrEv])
      · rcases h with h | h
        · exact absurd h (by simp [hdrEv])
        · obtain ⟨j, _, _, h3⟩ := writeEvents_mem _ m _ 0 _ h
          exact absurd h3 (by simp [hdrEv])
  · rintro rfl
    unfold processSet
    cases hr : env.recv n with
    | throws k e => simp
    | ok k s => simp

theorem processSet_countP (env : Env) (m k : Nat) (s : ImageSet)
    (hr : env.recv m = RecvOutcome.ok k s) :
    List.countP isCollectTrue (processSet env m).1 = 1 := by
  unfold processSet
  rw [hr]
  simp only [List.countP_cons, List.countP_append, countP_attemptEvents,
    countP_writeEvents]
  simp [isCollectTrue, hdrEv]

theorem processSet_countP_throws (env : Env) (m k : Nat) (e : String)
    (hr : env.recv m = RecvOutcome.throws k e) :
    List.countP isCollectTrue (processSet env m).1 = 0 := by
  unfold processSet
  rw [hr]
  simp only [List.countP_cons, List.countP_append, countP_attemptEvents]
  simp [isCollectTrue, hdrEv]

theorem processSet_snd_ok (env : Env) (m k : Nat) (s : ImageSet)
    (hr : env.recv m = RecvOutcome.ok k s) (hw : ∀ j, env.writeOutcome m j = none) :
    (processSet env m).2 = none := by
  unfold processSet
  rw [hr]
  simp only
  rw [writeEvents_ok (env.writeOutcome m) m hw s.numberOfImages 0]

theorem processSet_snd_none_recv (env : Env) (m : Nat)
    (h : (processSet env m).2 = none) : ∃ k s, env.recv m = RecvOutcome.ok k s := by
  unfold processSet at h
  cases hr : env.recv m with
  | throws k e => rw [hr] at h; simp at h
  | ok k s => exact ⟨k, s, rfl⟩

theorem setsLoop_ok (env : Env)
    (hw : ∀ m j, env.writeOutcome m j = none) : ∀ (rem start : Nat),
    (∀ m, start ≤ m → m < start + rem → ∃ k s, env.recv m = RecvOutcome.ok k s) →
    (setsLoop env start rem).2 = none ∧
    List.countP isCollectTrue (setsLoop env start rem).1 = rem := by
  intro rem
  induction rem with
  | zero => intro start _; simp [setsLoop]
  | succ rem ih =>
    intro start hok
    obtain ⟨k, s, hr⟩ := hok start (le_refl start) (by omega)
    have hps2 : (processSet env start).2 = none :=
      processSet_snd_ok env start k s hr (fun j => hw start j)
    have ih' := ih (start + 1) (fun m h1 h2 => hok m (by omega) (by omega))
    simp only [setsLoop, hps2]
    constructor
    · exact ih'.1
    · rw [List.countP_append, processSet_countP env start k s hr, ih'.2]
      omega

theorem setsLoop_hdr_mem (env : Env)
    (hw : ∀ m j, env.writeOutcome m j = none) : ∀ (rem start : Nat),
    (∀ m, start ≤ m → m < start + rem → ∃ k s, env.recv m = RecvOutcome.ok k s) →
    ∀ n, (hdrEv n ∈ (setsLoop env start rem).1 ↔ (start ≤ n ∧ n < start + rem)) := by
  intro rem
  induction rem with
  | zero => intro start _ n; simp [setsLoop]
  | succ rem ih =>
    intro start hok n
    obtain ⟨k, s, hr⟩ := hok start (le_refl start) (by omega)
    have hps2 : (processSet env start).2 = none :=
      processSet_snd_ok env start k s hr (fun j => hw start j)
    have ih' := ih (start + 1) (fun m h1 h2 => hok m (by omega) (by omega)) n
    simp only [setsLoop, hps2]
    rw [List.mem_append, hdrEv_mem_processSet env start n, ih']
    omega

theorem body_ok_trace (env : Env) (d : Device) (ds : List Device)
    (hdev : env.devices = d :: ds) (he : env.enumOutcome = none) (hc : env.ctorOutcome = none)
    (hl : (setsLoop env 0 100).2 = none) :
    mainFn env = (deviceLines env.devices ++
      Event.constructTransfer d :: (setsLoop env 0 100).1, 0) := by
  simp only [mainFn, body, he, hdev, hc, hl]

theorem countP_collectTrue_deviceLines (ds : List Device) :
    List.countP isCollectTrue (deviceLines ds) = 0 := by
  rw [List.countP_eq_zero]
  intro e he
  simp only [deviceLines, List.mem_cons, List.mem_append, List.mem_map,
    List.mem_singleton] at he
  rcases he with (rfl | ⟨d, _, rfl⟩) | (rfl | h)
  · simp [isCollectTrue]
  · simp [isCollectTrue]
  · simp [isCollectTrue]
  · simp at h

/-- C4: in a run where at least one device is discovered, nothing raises
and every reception eventually succeeds, the program receives exactly 100
image sets: the trace holds exactly 100 successful collect calls, and the
reception loop announces precisely the set numbers 0 through 99. -/
theorem hundred_sets_received (env : Env) (d : Device) (ds : List Device)
    (hdev : env.devices = d :: ds) (he : env.enumOutcome = none) (hc : env.ctorOutcome = none)
    (hok : ∀ m, m < 100 → ∃ k s, env.recv m = RecvOutcome.ok k s)
    (hw : ∀ m j, env.writeOutcome m j = none) :
    List.countP isCollectTrue (mainFn env).1 = 100 ∧
    (∀ n, hdrEv n ∈ (setsLoop env 0 100).1 ↔ n < 100) := by
  have hloop := setsLoop_ok env hw 100 0 (fun m h1 h2 => hok m (by omega))
  have htr := body_ok_trace env d ds hdev he hc hloop.1
  constructor
  · rw [htr]
    simp only [List.countP_append, List.countP_cons, countP_collectTrue_deviceLines,
      hloop.2]
    simp [isCollectTrue]
  · intro n
    rw [setsLoop_hdr_mem env hw 100 0 (fun m h1 h2 => hok m (by omega)) n]
    omega

theorem hundred_sets_received_witness :
    List.countP isCollectTrue (mainFn envAllOk).1 = 100 :=
  (hundred_sets_received envAllOk devCam [] rfl rfl rfl
    (fun m _ => ⟨0, ⟨0⟩, rfl⟩) (fun _ _ => rfl)).1

theorem filter_writeForSet_deviceLines (ds : List Device) (n : Nat) :
    (deviceLines ds).filter (isWriteForSet n) = [] := by
  rw [List.filter_eq_nil_iff]
  intro e he
  simp only [deviceLines, List.mem_cons, List.mem_append, List.mem_map,
    List.mem_singleton] at he
  rcases he with (rfl | ⟨d, _, rfl⟩) | (rfl | h)
  · simp [isWriteForSet]
  · simp [isWriteForSet]
  · simp [isWriteForSet]
  · simp at h

theorem filter_writeForSet_attempts (k n : Nat) :
    (attemptEvents k).filter (isWriteForSet n) = [] := by
  rw [List.filter_eq_nil_iff]
  intro e he
  rw [mem_attemptEvents k e he]
  simp [isWriteForSet]

theorem processSet_filter_ne (env : Env) (m n : Nat) (hmn : m ≠ n) :
    (processSet env m).1.filter (isWriteForSet n) = [] := by
  rw [List.filter_eq_nil_iff]
  intro e he
  unfold processSet at he
  cases hr : env.recv m with
  | throws k ex =>
    rw [hr] at he
    simp only [List.mem_cons, List.mem_append, List.mem_singleton] at he
    rcases he with rfl | he | (rfl | h)
    · simp [isWriteForSet, hdrEv]
    · rw [mem_attemptEvents k e he]
      simp [isWriteForSet]
    · simp [isWriteForSet]
    · simp at h
  | ok k s =>
    rw [hr] at he
    simp only [List.mem_cons, List.mem_append] at he
    rcases he with rfl | he | rfl | he
    · simp [isWriteForSet, hdrEv]
    · rw [mem_attemptEvents k e he]
      simp [isWriteForSet]
    · simp [isWriteForSet]
    · obtain ⟨j, _, _, rfl⟩ := writeEvents_mem _ m _ 0 e he
      simp only [isWriteForSet, decide_eq_true_eq]
      intro hfn
      exact hmn (fileName_inj j m j n hfn).2

theorem processSet_filter_self (env : Env) (n k : Nat) (s : ImageSet)
    (hr : env.recv n = RecvOutcome.ok k s) (hw : ∀ j, env.writeOutcome n j = none) :
    (processSet env n).1.filter (isWriteForSet n) =
      (List.range' 0 s.numberOfImages).map (fun j => Event.writeCall j (fileName j n)) := by
  unfold processSet
  rw [hr]
  simp only
  rw [writeEvents_ok (env.writeOutcome n) n hw s.numberOfImages 0]
  simp only
  rw [List.filter_cons_of_neg (by simp [isWriteForSet, hdrEv]),
    List.filter_append, filter_writeForSet_attempts,
    List.filter_cons_of_neg (by simp [isWriteForSet])]
  rw [List.filter_eq_self.mpr]
  · simp
  · intro e he
    obtain ⟨j, _, rfl⟩ := List.mem_map.mp he
    simp [isWriteForSet]

theorem setsLoop_filter_gt (env : Env) (n : Nat) : ∀ rem start, n < start →
    (setsLoop env start rem).1.filter (isWriteForSet n) = [] := by
  intro rem
  induction rem with
  | zero => intro start _; simp [setsLoop]
  | succ rem ih =>
    intro start hlt
    cases hp : (processSet env start).2 with
    | some e =>
      simp only [setsLoop, hp]
      exact processSet_filter_ne env start n (by omega)
    | none =>
      simp only [setsLoop, hp]
      rw [List.filter_append, processSet_filter_ne env start n (by omega),
        ih (start + 1) (by omega)]
      rfl

theorem setsLoop_filter_in (env : Env) (n k : Nat) (s : ImageSet)
    (hr : env.recv n = RecvOutcome.ok k s) (hw : ∀ m j, env.writeOutcome m j = none) :
    ∀ rem start,
    (∀ m, start ≤ m → m < start + rem → ∃ k2 s2, env.recv m = RecvOutcome.ok k2 s2) →
    start ≤ n → n < start + rem →
    (setsLoop env start rem).1.filter (isWriteForSet n) =
      (List.range' 0 s.numberOfImages).map (fun j => Event.writeCall j (fileName j n)) := by
  intro rem
  induction rem with
  | zero => intro start _ h1 h2; omega
  | succ rem ih =>
    intro start hok h1 h2
    obtain ⟨k2, s2, hr2⟩ := hok start (le_refl start) (by omega)
    have hps2 : (processSet env start).2 = none :=
      processSet_snd_ok env start k2 s2 hr2 (fun j => hw start j)
    simp only [setsLoop, hps2]
    rw [List.filter_append]
    by_cases hsn : start = n
    · subst hsn
      rw [processSet_filter_self env start k s hr (fun j => hw start j),
        setsLoop_filter_gt env start rem (start + 1) (by omega), List.append_nil]
    · have hn1 : start + 1 ≤ n := by omega
      rw [processSet_filter_ne env start n hsn,
        ih (start + 1) (fun m hm1 hm2 => hok m (by omega) (by omega)) hn1 (by omega)]
      rfl

theorem mainFn_filter_writes (env : Env) (d : Device) (ds : List Device)
    (hdev : env.devices = d :: ds) (he : env.enumOutcome = none) (hc : env.ctorOutcome = none)
    (hok : ∀ m, m < 100 → ∃ k2 s2, env.recv m = RecvOutcome.ok k2 s2)
    (hw : ∀ m j, env.writeOutcome m j = none)
    (n k : Nat) (s : ImageSet) (hn : n < 100) (hr : env.recv n = RecvOutcome.ok k s) :
    (mainFn env).1.filter (isWriteForSet n) =
      (List.range s.numberOfImages).map (fun j => Event.writeCall j (fileName j n)) := by
  have hloop := setsLoop_ok env hw 100 0 (fun m h1 h2 => hok m (by omega))
  have htr := body_ok_trace env d ds hdev he hc hloop.1
  rw [htr]
  simp only [List.filter_append]
  rw [filter_writeForSet_deviceLines,
    List.filter_cons_of_neg (by simp [isWriteForSet]),
    setsLoop_filter_in env n k s hr hw 100 0 (fun m h1 h2 => hok m (by omega))
      (by omega) (by omega), List.range_eq_range']
  rfl

/-- C6 amended: in a run where at least one device is discovered, no
exception occurs and every reception eventually succeeds, the writePgmFile
calls performed for image set n are exactly one call per sub-image index
0 to getNumberOfImages minus 1, in increasing index order. -/
theorem writes_per_received_set (env : Env) (d : Device) (ds : List Device)
    (hdev : env.devices = d :: ds) (he : env.enumOutcome = none) (hc : env.ctorOutcome = none)
    (hok : ∀ m, m < 100 → ∃ k2 s2, env.recv m = RecvOutcome.ok k2 s2)
    (hw : ∀ m j, env.writeOutcome m j = none)
    (n k : Nat) (s : ImageSet) (hn : n < 100) (hr : env.recv n = RecvOutcome.ok k s) :
    (mainFn env).1.filter (isWriteForSet n) =
      (List.range s.getNumberOfImages).map (fun j => Event.writeCall j (fileName j n)) :=
  mainFn_filter_writes env d ds hdev he hc hok hw n k s hn hr

theorem writes_per_received_set_witness :
    (mainFn envOneImg).1.filter (isWriteForSet 0) =
      (List.range (1 : Nat)).map (fun j => Event.writeCall j (fileName j 0)) :=
  writes_per_received_set envOneImg devCam [] rfl rfl rfl
    (fun m _ => ⟨0, ⟨1⟩, rfl⟩) (fun _ _ => rfl) 0 0 ⟨1⟩ (by norm_num) rfl

/-- C1 amended: in a run where at least one device is discovered, no
exception occurs and every reception eventually succeeds, for every
received image set n and every sub-image index i of that set the program
writes a file named image III underscore M dot pgm where III is the
three-digit zero-padded sub-image index i and M is the decimal set
number n. -/
theorem file_written_for_each_subimage (env : Env) (d : Device) (ds : List Device)
    (hdev : env.devices = d :: ds) (he : env.enumOutcome = none) (hc : env.ctorOutcome = none)
    (hok : ∀ m, m < 100 → ∃ k2 s2, env.recv m = RecvOutcome.ok k2 s2)
    (hw : ∀ m j, env.writeOutcome m j = none)
    (n k : Nat) (s : ImageSet) (hn : n < 100) (hr : env.recv n = RecvOutcome.ok k s)
    (i : Nat) (hi : i < s.numberOfImages) :
    Event.writeCall i (fileName i n) ∈ (mainFn env).1 := by
  have hfil := mainFn_filter_writes env d ds hdev he hc hok hw n k s hn hr
  have hmem : Event.writeCall i (fileName i n) ∈ (mainFn env).1.filter (isWriteForSet n) := by
    rw [hfil]
    exact List.mem_map_of_mem _ (List.mem_range.mpr hi)
  exact List.mem_of_mem_filter hmem

theorem file_written_for_each_subimage_witness :
    Event.writeCall 0 (fileName 0 0) ∈ (mainFn envOneImg).1 :=
  file_written_for_each_subimage envOneImg devCam [] rfl rfl rfl
    (fun m _ => ⟨0, ⟨1⟩, rfl⟩) (fun _ _ => rfl) 0 0 ⟨1⟩ (by norm_num) rfl 0 (by norm_num)

/-- C1 counterexample: in a concrete exception-free run that receives
sets 0 and 1 with one sub-image each, the write performed for sub-image 0
of set 1 carries the name image000_1.pgm: the zero-padded field holds the
sub-image index and the trailing field the set number, and no write event
of the run carries the name image001_0.pgm the claim predicts for that
set and sub-image. -/
theorem padded_field_cex :
    envTwoSets.recv 1 = RecvOutcome.ok 0 ⟨1⟩ ∧
    (mainFn envTwoSets).1.filter (hasWriteNamed (fileName 0 1)) =
      [Event.writeCall 0 (fileName 0 1)] ∧
    (mainFn envTwoSets).1.filter (hasWriteNamed (specFileName 1 0)) = [] ∧
    fileName 0 1 = "image000_1.pgm" ∧ specFileName 1 0 = "image001_0.pgm" := by
  decide

/-- C6 counterexample: in a concrete run in which set 0 is received with
two sub-images and the write of sub-image 0 raises, the set is received
(one successful collect call) yet sub-image 1 is never written, so not
every index of the received set gets a writePgmFile call. -/
theorem one_write_per_subimage_cex :
    envWriteThrow.recv 0 = RecvOutcome.ok 0 ⟨2⟩ ∧
    ImageSet.getNumberOfImages ⟨2⟩ = 2 ∧
    List.countP isCollectTrue (mainFn envWriteThrow).1 = 1 ∧
    List.countP (isWriteWithIndex 0) (mainFn envWriteThrow).1 = 1 ∧
    List.countP (isWriteWithIndex 1) (mainFn envWriteThrow).1 = 0 := by
  decide

theorem append_eq_split {α : Type} (a : List α) : ∀ (b xs ys : List α) (e : α),
    a ++ b = xs ++ e :: ys →
    (∃ ys2, a = xs ++ e :: ys2 ∧ ys = ys2 ++ b) ∨
    (∃ xs2, xs = a ++ xs2 ∧ b = xs2 ++ e :: ys) := by
  induction a with
  | nil =>
    intro b xs ys e h
    right
    exact ⟨xs, rfl, h⟩
  | cons c a ih =>
    intro b xs ys e h
    cases xs with
    | nil =>
      simp only [List.cons_append, List.nil_append, List.cons.injEq] at h
      left
      exact ⟨a, by simp [h.1], h.2.symm⟩
    | cons x xs =>
      simp only [List.cons_append, List.cons.injEq] at h
      obtain ⟨rfl, h2⟩ := h
      rcases ih b xs ys e h2 with ⟨ys2, ha, hy⟩ | ⟨xs2, hx, hb⟩
      · left
        exact ⟨ys2, by simp [ha], hy⟩
      · right
        exact ⟨xs2, by simp [hx], hb⟩

theorem mem_of_split {α : Type} (a b ys : List α) (e : α) (h : a = b ++ e :: ys) :
    e ∈ a := by
  rw [h]
  simp

theorem processSet_no_write_throws (env : Env) (m k : Nat) (ex : String)
    (hr : env.recv m = RecvOutcome.throws k ex) (e : Event)
    (he : e ∈ (processSet env m).1) : isWrite e = false := by
  unfold processSet at he
  rw [hr] at he
  simp only [List.mem_cons, List.mem_append, List.mem_singleton] at he
  rcases he with rfl | he | (rfl | h)
  · simp [isWrite, hdrEv]
  · rw [mem_attemptEvents k e he]; simp [isWrite]
  · simp [isWrite]
  · simp at h

theorem processSet_write_pos (env : Env) (m n i : Nat) (xs ys : List Event)
    (h : (processSet env m).1 = xs ++ Event.writeCall i (fileName i n) :: ys) :
    n = m ∧ 1 ≤ List.countP isCollectTrue xs := by
  unfold processSet at h
  cases hr : env.recv m with
  | throws k ex =>
    rw [hr] at h
    exfalso
    have hmem := mem_of_split _ _ _ _ h
    have := processSet_no_write_throws env m k ex (by rw [hr] : env.recv m = _)
      (Event.writeCall i (fileName i n)) (by unfold processSet; rw [hr]; exact hmem)
    simp [isWrite] at this
  | ok k s =>
    rw [hr] at h
    dsimp only at h
    have hshape : hdrEv m :: (attemptEvents k ++
        Event.collectCall collectTimeout (CollectOutcome.returned true) ::
          (writeEvents (env.writeOutcome m) m 0 s.numberOfImages).1) =
        (hdrEv m :: (attemptEvents k ++
          [Event.collectCall collectTimeout (CollectOutcome.returned true)])) ++
          (writeEvents (env.writeOutcome m) m 0 s.numberOfImages).1 := by
      simp
    rw [hshape] at h
    rcases append_eq_split _ _ _ _ _ h with ⟨ys2, ha, _⟩ | ⟨xs2, hx, hb⟩
    · exfalso
      have hmem := mem_of_split _ _ _ _ ha
      simp only [List.mem_cons, List.mem_append, List.mem_singleton] at hmem
      rcases hmem with hcon | hcon | hcon
      · simp [hdrEv] at hcon
      · have := mem_attemptEvents k _ hcon
        simp at this
      · simp at hcon
    · have hmem : Event.writeCall i (fileName i n) ∈
          (writeEvents (env.writeOutcome m) m 0 s.numberOfImages).1 :=
        mem_of_split _ _ _ _ hb
      obtain ⟨j, _, _, hj⟩ := writeEvents_mem _ m _ 0 _ hmem
      have hn : n = m := by
        have hji : j = i := by
          have := congrArg (fun ev => match ev with
            | Event.writeCall a _ => a
            | _ => 0) hj
          simpa using this.symm
        subst hji
        have hfn : fileName j n = fileName j m := by
          have := congrArg (fun ev => match ev with
            | Event.writeCall _ f => f
            | _ => "") hj
          simpa using this
        exact (fileName_inj j n j m hfn).2
      refine ⟨hn, ?_⟩
      rw [hx]
      rw [List.countP_append]
      have : List.countP isCollectTrue (hdrEv m :: (attemptEvents k ++
          [Event.collectCall collectTimeout (CollectOutcome.returned true)])) = 1 := by
        simp [List.countP_cons, List.countP_append, countP_attemptEvents, isCollectTrue, hdrEv]
      omega

theorem setsLoop_write_countP (env : Env) : ∀ (rem start n i : Nat) (xs ys : List Event),
    (setsLoop env start rem).1 = xs ++ Event.writeCall i (fileName i n) :: ys →
    start ≤ n ∧ n - start + 1 ≤ List.countP isCollectTrue xs := by
  intro rem
  induction rem with
  | zero =>
    intro start n i xs ys h
    simp only [setsLoop] at h
    exact absurd (mem_of_split _ _ _ _ h) (by simp)
  | succ rem ih =>
    intro start n i xs ys h
    cases hp : (processSet env start).2 with
    | some e =>
      simp only [setsLoop, hp] at h
      have := processSet_write_pos env start n i xs ys h
      exact ⟨by omega, by omega⟩
    | none =>
      simp only [setsLoop, hp] at h
      rcases append_eq_split _ _ _ _ _ h with ⟨ys2, ha, _⟩ | ⟨xs2, hx, hb⟩
      · have := processSet_write_pos env start n i xs ys2 ha
        exact ⟨by omega, by omega⟩
      · obtain ⟨k, s, hr⟩ := processSet_snd_none_recv env start hp
        have h1 : List.countP isCollectTrue (processSet env start).1 = 1 :=
          processSet_countP env start k s hr
        have := ih (start + 1) n i xs2 ys hb
        rw [hx, List.countP_append, h1]
        exact ⟨by omega, by omega⟩

theorem noBareFailure_append (a b : List Event) (ha : NoBareFailure a)
    (hb : NoBareFailure b) : NoBareFailure (a ++ b) := by
  intro xs t ys h
  rcases append_eq_split _ _ _ _ _ h with ⟨ys2, h1, h2⟩ | ⟨xs2, h1, h2⟩
  · obtain ⟨t2, o2, zs, hz⟩ := ha xs t ys2 h1
    exact ⟨t2, o2, zs ++ b, by rw [h2, hz]; simp⟩
  · exact hb xs2 t ys h2

theorem noBareFailure_of_no_collect (a : List Event)
    (h : ∀ e ∈ a, isCollectFalse e = false) : NoBareFailure a := by
  intro xs t ys heq
  exfalso
  have hm := mem_of_split _ _ _ _ heq
  have := h _ hm
  simp [isCollectFalse] at this

theorem noBareFailure_attempts_final (k : Nat) (fin : Event)
    (hfin : isCollect fin = true) (hfin2 : isCollectFalse fin = false) :
    NoBareFailure (attemptEvents k ++ [fin]) := by
  induction k with
  | zero =>
    intro xs t ys h
    simp only [attemptEvents, List.replicate, List.nil_append] at h
    cases xs with
    | nil =>
      simp only [List.nil_append, List.cons.injEq] at h
      rw [h.1] at hfin2
      simp [isCollectFalse] at hfin2
    | cons x xs =>
      simp only [List.cons_append, List.cons.injEq] at h
      exact absurd h.2 (by simp)
  | succ k ih =>
    intro xs t ys h
    have hstep : attemptEvents (k + 1) ++ [fin] =
        Event.collectCall collectTimeout (CollectOutcome.returned false) ::
          (attemptEvents k ++ [fin]) := by
      simp [attemptEvents, List.replicate_succ]
    rw [hstep] at h
    cases xs with
    | nil =>
      simp only [List.nil_append, List.cons.injEq] at h
      rw [← h.2]
      cases k with
      | zero =>
        cases fin with
        | collectCall tf o => exact ⟨tf, o, [], by simp [attemptEvents]⟩
        | stdoutLine s => simp [isCollect] at hfin
        | stderrLine s => simp [isCollect] at hfin
        | constructTransfer d => simp [isCollect] at hfin
        | writeCall i f => simp [isCollect] at hfin
      | succ k2 =>
        refine ⟨collectTimeout, CollectOutcome.returned false,
          List.replicate k2 (Event.collectCall collectTimeout
            (CollectOutcome.returned false)) ++ [fin], ?_⟩
        simp [attemptEvents, List.replicate_succ]
    | cons x xs =>
      simp only [List.cons_append, List.cons.injEq] at h
      exact ih xs t ys h.2

theorem noBareFailure_processSet (env : Env) (m : Nat) :
    NoBareFailure (processSet env m).1 := by
  unfold processSet
  cases hr : env.recv m with
  | throws k e =>
    simp only
    have hshape : hdrEv m :: (attemptEvents k ++
        [Event.collectCall collectTimeout (CollectOutcome.threw e)]) =
        [hdrEv m] ++ (attemptEvents k ++
          [Event.collectCall collectTimeout (CollectOutcome.threw e)]) := by
      simp
    rw [hshape]
    exact noBareFailure_append _ _
      (noBareFailure_of_no_collect _ (by intro e2 he2; simp at he2; rw [he2]; simp [isCollectFalse, hdrEv]))
      (noBareFailure_attempts_final k _ (by simp [isCollect]) (by simp [isCollectFalse]))
  | ok k s =>
    simp only
    have hshape : hdrEv m :: (attemptEvents k ++
        Event.collectCall collectTimeout (CollectOutcome.returned true) ::
          (writeEvents (env.writeOutcome m) m 0 s.numberOfImages).1) =
        [hdrEv m] ++ ((attemptEvents k ++
          [Event.collectCall collectTimeout (CollectOutcome.returned true)]) ++
          (writeEvents (env.writeOutcome m) m 0 s.numberOfImages).1) := by
      simp
    rw [hshape]
    refine noBareFailure_append _ _
      (noBareFailure_of_no_collect _ (by intro e2 he2; simp at he2; rw [he2]; simp [isCollectFalse, hdrEv]))
      (noBareFailure_append _ _
        (noBareFailure_attempts_final k _ (by simp [isCollect]) (by simp [isCollectFalse]))
        (noBareFailure_of_no_collect _ ?_))
    intro e2 he2
    obtain ⟨j, _, _, rfl⟩ := writeEvents_mem _ m _ 0 _ he2
    simp [isCollectFalse]

theorem noBareFailure_setsLoop (env : Env) : ∀ rem start,
    NoBareFailure (setsLoop env start rem).1 := by
  intro rem
  induction rem with
  | zero =>
    intro start
    simp only [setsLoop]
    exact noBareFailure_of_no_collect [] (by simp)
  | succ rem ih =>
    intro start
    cases hp : (processSet env start).2 with
    | some e =>
      simp only [setsLoop, hp]
      exact noBareFailure_processSet env start
    | none =>
      simp only [setsLoop, hp]
      exact noBareFailure_append _ _ (noBareFailure_processSet env start) (ih (start + 1))

theorem isCollectFalse_false_of_not_collect (e : Event) (h : isCollect e = false) :
    isCollectFalse e = false := by
  cases e <;> simp_all [isCollect, isCollectFalse]

theorem isCollectTrue_false_of_not_collect (e : Event) (h : isCollect e = false) :
    isCollectTrue e = false := by
  cases e <;> simp_all [isCollect, isCollectTrue]

theorem collect_timeout_processSet (env : Env) (m : Nat) (t : TimeoutVal)
    (o : CollectOutcome) (h : Event.collectCall t o ∈ (processSet env m).1) :
    t = collectTimeout := by
  unfold processSet at h
  cases hr : env.recv m with
  | throws k e =>
    rw [hr] at h
    simp only [List.mem_cons, List.mem_append, List.mem_singleton] at h
    rcases h with h | h | (h | hfalse)
    · simp [hdrEv] at h
    · have := mem_attemptEvents k _ h
      simp only [Event.collectCall.injEq] at this
      exact this.1
    · simp only [Event.collectCall.injEq] at h
      exact h.1
    · simp at hfalse
  | ok k s =>
    rw [hr] at h
    simp only [List.mem_cons, List.mem_append] at h
    rcases h with h | h | h | h
    · simp [hdrEv] at h
    · have := mem_attemptEvents k _ h
      simp only [Event.collectCall.injEq] at this
      exact this.1
    · simp only [Event.collectCall.injEq] at h
      exact h.1
    · obtain ⟨j, _, _, hj⟩ := writeEvents_mem _ m _ 0 _ h
      simp at hj

theorem collect_timeout_setsLoop (env : Env) : ∀ (rem start : Nat) (t : TimeoutVal)
    (o : CollectOutcome), Event.collectCall t o ∈ (setsLoop env start rem).1 →
    t = collectTimeout := by
  intro rem
  induction rem with
  | zero => intro start t o h; simp [setsLoop] at h
  | succ rem ih =>
    intro start t o h
    cases hp : (processSet env start).2 with
    | some e =>
      simp only [setsLoop, hp] at h
      exact collect_timeout_processSet env start t o h
    | none =>
      simp only [setsLoop, hp, List.mem_append] at h
      rcases h with h | h
      · exact collect_timeout_processSet env start t o h
      · exact ih (start + 1) t o h

theorem deviceLines_inert (ds : List Device) (e : Event) (he : e ∈ deviceLines ds) :
    isCollect e = false ∧ isWrite e = false := by
  simp only [deviceLines, List.mem_cons, List.mem_append, List.mem_map,
    List.mem_singleton] at he
  rcases he with (rfl | ⟨d, _, rfl⟩) | (rfl | h)
  · simp [isCollect, isWrite]
  · simp [isCollect, isWrite]
  · simp [isCollect, isWrite]
  · simp at h

theorem mainFn_decomp (env : Env) : ∃ pre mid post,
    (mainFn env).1 = pre ++ (mid ++ post) ∧
    (mid = (setsLoop env 0 100).1 ∨ mid = []) ∧
    (∀ e ∈ pre, isCollect e = false ∧ isWrite e = false) ∧
    (∀ e ∈ post, isCollect e = false ∧ isWrite e = false) := by
  obtain ⟨ds, eo, co, rc, wo⟩ := env
  cases eo with
  | some e =>
    refine ⟨[], [], [Event.stderrLine ("Exception occurred: " ++ e)],
      by simp [mainFn, body], Or.inr rfl, by simp, ?_⟩
    intro e2 he2
    simp only [List.mem_singleton] at he2
    rw [he2]
    simp [isCollect, isWrite]
  | none =>
    cases ds with
    | nil =>
      refine ⟨[Event.stdoutLine "No devices discovered!"], [], [],
        by simp [mainFn, body], Or.inr rfl, ?_, by simp⟩
      intro e2 he2
      simp only [List.mem_singleton] at he2
      rw [he2]
      simp [isCollect, isWrite]
    | cons d ds =>
      cases co with
      | some e =>
        refine ⟨deviceLines (d :: ds), [], [Event.stderrLine ("Exception occurred: " ++ e)],
          by simp [mainFn, body], Or.inr rfl, deviceLines_inert (d :: ds), ?_⟩
        intro e2 he2
        simp only [List.mem_singleton] at he2
        rw [he2]
        simp [isCollect, isWrite]
      | none =>
        cases hl : (setsLoop ⟨d :: ds, none, none, rc, wo⟩ 0 100).2 with
        | some e =>
          refine ⟨deviceLines (d :: ds) ++ [Event.constructTransfer d],
            (setsLoop ⟨d :: ds, none, none, rc, wo⟩ 0 100).1,
            [Event.stderrLine ("Exception occurred: " ++ e)],
            by simp [mainFn, body, hl], Or.inl rfl, ?_, ?_⟩
          · intro e2 he2
            simp only [List.mem_append, List.mem_singleton] at he2
            rcases he2 with he2 | rfl
            · exact deviceLines_inert (d :: ds) e2 he2
            · simp [isCollect, isWrite]
          · intro e2 he2
            simp only [List.mem_singleton] at he2
            rw [he2]
            simp [isCollect, isWrite]
        | none =>
          refine ⟨deviceLines (d :: ds) ++ [Event.constructTransfer d],
            (setsLoop ⟨d :: ds, none, none, rc, wo⟩ 0 100).1, [],
            by simp [mainFn, body, hl], Or.inl rfl, ?_, by simp⟩
          intro e2 he2
          simp only [List.mem_append, List.mem_singleton] at he2
          rcases he2 with he2 | rfl
          · exact deviceLines_inert (d :: ds) e2 he2
          · simp [isCollect, isWrite]

/-- C5: in every run, each collectReceivedImageSet call is made with
timeout 0.1; every call that returns false is immediately followed by
another collectReceivedImageSet call, so a failed attempt is always
retried and never followed by a write or by skipping the set; and every
writePgmFile call for image set n is preceded by at least n+1 successful
collect calls, so in particular no file of a set is written before that
very set has been successfully received. -/
theorem poll_retry_discipline (env : Env) :
    (∀ t o, Event.collectCall t o ∈ (mainFn env).1 → t = collectTimeout) ∧
    NoBareFailure (mainFn env).1 ∧
    (∀ n i xs ys, (mainFn env).1 = xs ++ Event.writeCall i (fileName i n) :: ys →
      n + 1 ≤ List.countP isCollectTrue xs) := by
  obtain ⟨pre, mid, post, htr, hmid, hpre, hpost⟩ := mainFn_decomp env
  refine ⟨?_, ?_, ?_⟩
  · intro t o hmem
    rw [htr] at hmem
    simp only [List.mem_append] at hmem
    rcases hmem with h | h | h
    · have := (hpre _ h).1
      simp [isCollect] at this
    · rcases hmid with rfl | rfl
      · exact collect_timeout_setsLoop env 100 0 t o h
      · simp at h
    · have := (hpost _ h).1
      simp [isCollect] at this
  · rw [htr]
    refine noBareFailure_append _ _
      (noBareFailure_of_no_collect pre
        (fun e he => isCollectFalse_false_of_not_collect e (hpre e he).1))
      (noBareFailure_append _ _ ?_
        (noBareFailure_of_no_collect post
          (fun e he => isCollectFalse_false_of_not_collect e (hpost e he).1)))
    rcases hmid with rfl | rfl
    · exact noBareFailure_setsLoop env 100 0
    · exact noBareFailure_of_no_collect [] (by simp)
  · intro n i xs ys heq
    rw [htr] at heq
    rcases append_eq_split _ _ _ _ _ heq with ⟨ys2, h1, _⟩ | ⟨xs2, h1, h2⟩
    · exfalso
      have hmem := mem_of_split _ _ _ _ h1
      have := (hpre _ hmem).2
      simp [isWrite] at this
    · rcases append_eq_split _ _ _ _ _ h2 with ⟨ys3, h3, _⟩ | ⟨xs3, h3, h4⟩
      · rcases hmid with rfl | rfl
        · have hcount := setsLoop_write_countP env 100 0 n i xs2 ys3 h3
          have hpre0 : List.countP isCollectTrue pre = 0 := by
            rw [List.countP_eq_zero]
            intro e he
            have := isCollectTrue_false_of_not_collect e (hpre e he).1
            simp [this]
          rw [h1, List.countP_append, hpre0]
          omega
        · exfalso
          have hmem := mem_of_split _ _ _ _ h3
          simp at hmem
      · exfalso
        have hmem := mem_of_split _ _ _ _ h4
        have := (hpost _ hmem).2
        simp [isWrite] at this

theorem poll_retry_discipline_witness :
    1 + 1 ≤ List.countP isCollectTrue
      [Event.stdoutLine "Discovered devices:", Event.stdoutLine "camera",
       Event.stdoutLine "", Event.constructTransfer devCam, hdrEv 0,
       Event.collectCall collectTimeout (CollectOutcome.returned true),
       Event.writeCall 0 (fileName 0 0), hdrEv 1,
       Event.collectCall collectTimeout (CollectOutcome.returned true)] :=
  (poll_retry_discipline envTwoSets).2.2 1 0
    [Event.stdoutLine "Discovered devices:", Event.stdoutLine "camera",
     Event.stdoutLine "", Event.constructTransfer devCam, hdrEv 0,
     Event.collectCall collectTimeout (CollectOutcome.returned true),
     Event.writeCall 0 (fileName 0 0), hdrEv 1,
     Event.collectCall collectTimeout (CollectOutcome.returned true)]
    [hdrEv 2, Event.collectCall collectTimeout (CollectOutcome.threw "stop"),
     Event.stderrLine ("Exception occurred: " ++ "stop")]
    (by decide)
